import Mathlib

/-!
Verification of the order-management, execution-algorithm and risk core of the
quantitative trading platform.

Modelling conventions (shallow embedding of the Python source):
- Python floats are modelled as exact rationals; all arithmetic in the source
  is plain +, -, *, /, min, max and comparisons, which carry over verbatim.
- Python dicts are modelled as association lists (dlookup, dinsert, derase);
  the active_orders dict shares its Order objects with the orders dict, so it
  is modelled as the list of active order ids, looked up in orders.
- Order ids (the source formats a counter into a string ORDER_NNNNNN) are
  modelled by the counter value itself.
- Wall-clock timestamps and human-readable message strings are display-only
  in the source and are omitted from the model.
- Observer callbacks are modelled by the ordered trace of events that a
  mutating operation fires (OrderEvent below); the source invokes each
  registered callback in list order at the points where the trace records an
  event.
-/

set_option allowUnsafeReducibility true
attribute [semireducible] Rat.sub Rat.add Rat.mul Rat.div Rat.inv Rat.neg

namespace QTPlatform

/-- Dictionary lookup on an association list, mirroring a Python dict read. -/
def dlookup {κ α : Type} [DecidableEq κ] (k : κ) : List (κ × α) → Option α
  | [] => none
  | (k2, v) :: rest => if k = k2 then some v else dlookup k rest

/-- Dictionary write, mirroring a Python dict assignment: replace the value
of an existing key in place, otherwise append the new binding at the end. -/
def dinsert {κ α : Type} [DecidableEq κ] (k : κ) (v : α) : List (κ × α) → List (κ × α)
  | [] => [(k, v)]
  | (k2, v2) :: rest => if k = k2 then (k, v) :: rest else (k2, v2) :: dinsert k v rest

/-- Dictionary deletion, mirroring a Python del of a key. -/
def derase {κ α : Type} [DecidableEq κ] (k : κ) : List (κ × α) → List (κ × α)
  | [] => []
  | (k2, v2) :: rest => if k = k2 then derase k rest else (k2, v2) :: derase k rest

theorem dlookup_dinsert_self {κ α : Type} [DecidableEq κ] (k : κ) (v : α)
    (d : List (κ × α)) : dlookup k (dinsert k v d) = some v := by
  induction d with
  | nil => simp [dlookup, dinsert]
  | cons hd tl ih =>
    obtain ⟨k2, v2⟩ := hd
    by_cases h : k = k2 <;> simp [dlookup, dinsert, h, ih]

theorem dlookup_dinsert_of_ne {κ α : Type} [DecidableEq κ] {k k2 : κ} (v : α)
    (d : List (κ × α)) (h : k2 ≠ k) :
    dlookup k2 (dinsert k v d) = dlookup k2 d := by
  induction d with
  | nil => simp [dlookup, dinsert, h]
  | cons hd tl ih =>
    obtain ⟨k3, v3⟩ := hd
    by_cases h3 : k = k3
    · subst h3
      simp [dlookup, dinsert, h]
    · by_cases h4 : k2 = k3 <;> simp [dlookup, dinsert, h3, h4, ih]

/-- Binary minimum on rationals, written out as the source's min so that it
evaluates by kernel reduction. -/
def qmin (a b : ℚ) : ℚ := if a ≤ b then a else b

theorem qmin_le_right (a b : ℚ) : qmin a b ≤ b := by
  unfold qmin
  split
  · assumption
  · exact le_refl b

theorem qmin_le_left (a b : ℚ) : qmin a b ≤ a := by
  unfold qmin
  split
  · exact le_refl a
  · exact le_of_not_le (by assumption)

theorem qmin_eq_right {a b : ℚ} (h : b ≤ a) : qmin a b = b := by
  unfold qmin
  split
  · exact le_antisymm (by assumption) h
  · rfl

theorem qmin_pos {a b : ℚ} (ha : 0 < a) (hb : 0 < b) : 0 < qmin a b := by
  unfold qmin
  split
  · exact ha
  · exact hb

/-! ### Order manager data model (src/trading/order_management.py) -/

inductive OrderStatus where
  | NEW
  | PARTIALLY_FILLED
  | FILLED
  | CANCELLED
  | REJECTED
  | PENDING_CANCEL
  | PENDING_NEW
deriving DecidableEq

inductive OrderType where
  | MARKET
  | LIMIT
  | STOP
  | STOP_LIMIT
  | TRAILING_STOP
deriving DecidableEq

inductive OrderSide where
  | BUY
  | SELL
deriving DecidableEq

structure Order where
  id : Nat
  symbol : String
  side : OrderSide
  order_type : OrderType
  quantity : ℚ
  price : Option ℚ := none
  stop_price : Option ℚ := none
  filled_quantity : ℚ := 0
  average_fill_price : ℚ := 0
  status : OrderStatus := OrderStatus.PENDING_NEW
  time_in_force : String := "GTC"
deriving DecidableEq

/-- Unfilled quantity of an order (property Order.unfilled_quantity). -/
def Order.unfilled_quantity (o : Order) : ℚ := o.quantity - o.filled_quantity

/-- Whether an order is still active (property Order.is_active): its status is
one of NEW, PARTIALLY_FILLED, PENDING_NEW, PENDING_CANCEL. -/
def Order.is_active (o : Order) : Bool :=
  match o.status with
  | OrderStatus.NEW => true
  | OrderStatus.PARTIALLY_FILLED => true
  | OrderStatus.PENDING_NEW => true
  | OrderStatus.PENDING_CANCEL => true
  | _ => false

structure Fill where
  order_id : Nat
  symbol : String
  side : OrderSide
  quantity : ℚ
  fill_price : ℚ
  fee : ℚ
  total_value : ℚ
deriving DecidableEq

/-- Fill constructor: total_value is computed as fill_price times quantity. -/
def mkFill (order_id : Nat) (symbol : String) (side : OrderSide)
    (quantity fill_price fee : ℚ) : Fill :=
  { order_id := order_id, symbol := symbol, side := side, quantity := quantity,
    fill_price := fill_price, fee := fee, total_value := fill_price * quantity }

/-- An observable event delivered to registered observers, in delivery order. -/
inductive OrderEvent where
  | statusChange (order_id : Nat) (old_status new_status : OrderStatus)
  | fillEvent (f : Fill)
deriving DecidableEq

/-- True exactly on fill events. -/
def OrderEvent.isFillEv : OrderEvent → Bool
  | OrderEvent.fillEvent _ => true
  | _ => false

structure OrderManager where
  orders : List (Nat × Order)
  fills : List Fill
  active_orders : List Nat
  order_counter : Nat
deriving DecidableEq

/-- A freshly constructed OrderManager. -/
def OrderManager.init : OrderManager :=
  { orders := [], fills := [], active_orders := [], order_counter := 0 }

/-- OrderManager._update_order_status: set the status of the order if it
exists and fire one status-change event; silently do nothing otherwise. -/
def update_order_status (m : OrderManager) (oid : Nat) (new_status : OrderStatus) :
    OrderManager × List OrderEvent :=
  match dlookup oid m.orders with
  | none => (m, [])
  | some o =>
    ({ m with orders := dinsert oid { o with status := new_status } m.orders },
     [OrderEvent.statusChange oid o.status new_status])

/-- OrderManager.create_order: assign the next counter id, build the order
with status PENDING_NEW, register it in orders and active_orders, then move
it to NEW through _update_order_status. No validation is performed. -/
def create_order (m : OrderManager) (symbol : String) (side : OrderSide)
    (order_type : OrderType) (quantity : ℚ) (price stop_price : Option ℚ) :
    OrderManager × Order × List OrderEvent :=
  let oid := m.order_counter + 1
  let o : Order :=
    { id := oid, symbol := symbol, side := side, order_type := order_type,
      quantity := quantity, price := price, stop_price := stop_price }
  let m1 : OrderManager :=
    { m with orders := dinsert oid o m.orders,
             active_orders := m.active_orders ++ [oid],
             order_counter := oid }
  let r := update_order_status m1 oid OrderStatus.NEW
  (r.1, { o with status := OrderStatus.NEW }, r.2)

/-- OrderManager.cancel_order: returns false when the id is not among the
active orders or the order is terminal; otherwise sets CANCELLED, deletes the
id from the active set and returns true. -/
def cancel_order (m : OrderManager) (oid : Nat) : OrderManager × Bool × List OrderEvent :=
  if oid ∈ m.active_orders then
    match dlookup oid m.orders with
    | none => (m, false, [])
    | some o =>
      if o.status = OrderStatus.FILLED ∨ o.status = OrderStatus.CANCELLED ∨
          o.status = OrderStatus.REJECTED then
        (m, false, [])
      else
        let r := update_order_status m oid OrderStatus.CANCELLED
        ({ r.1 with active_orders := r.1.active_orders.filter (fun x => x ≠ oid) },
         true, r.2)
  else (m, false, [])

/-- OrderManager.process_fill: on an unknown id, an inactive order, or a
clamped fill quantity of at most zero, return none with the state unchanged
and no events; otherwise clamp the fill, update filled quantity and running
average fill price, append the Fill, set the status (FILLED when fully
filled, removing the order from the active set, else PARTIALLY_FILLED) and
fire the status-change event followed by the fill event. -/
def process_fill (m : OrderManager) (oid : Nat) (fill_quantity fill_price fee : ℚ) :
    OrderManager × Option Fill × List OrderEvent :=
  match dlookup oid m.orders with
  | none => (m, none, [])
  | some o =>
    if o.is_active = false then (m, none, [])
    else
      let available_quantity := o.unfilled_quantity
      let actual_fill_qty := qmin fill_quantity available_quantity
      if actual_fill_qty ≤ 0 then (m, none, [])
      else
        let total_value := o.average_fill_price * o.filled_quantity +
          fill_price * actual_fill_qty
        let new_filled := o.filled_quantity + actual_fill_qty
        let o1 : Order :=
          { o with filled_quantity := new_filled,
                   average_fill_price := total_value / new_filled }
        let f : Fill := mkFill oid o.symbol o.side actual_fill_qty fill_price fee
        let m1 : OrderManager :=
          { m with orders := dinsert oid o1 m.orders, fills := m.fills ++ [f] }
        if o.quantity ≤ new_filled then
          let r := update_order_status m1 oid OrderStatus.FILLED
          ({ r.1 with active_orders := r.1.active_orders.filter (fun x => x ≠ oid) },
           some f, r.2 ++ [OrderEvent.fillEvent f])
        else
          let r := update_order_status m1 oid OrderStatus.PARTIALLY_FILLED
          (r.1, some f, r.2 ++ [OrderEvent.fillEvent f])

/-! ### Characterisation of a successful process_fill -/

/-- The clamped fill quantity used by process_fill. -/
def pfActual (o : Order) (q : ℚ) : ℚ := qmin q (o.quantity - o.filled_quantity)

/-- The status process_fill assigns after a successful fill. -/
def pfNewStatus (o : Order) (q : ℚ) : OrderStatus :=
  if o.quantity ≤ o.filled_quantity + pfActual o q then OrderStatus.FILLED
  else OrderStatus.PARTIALLY_FILLED

/-- The updated order after a successful process_fill. -/
def pfOrder (o : Order) (q p : ℚ) : Order :=
  { o with
    filled_quantity := o.filled_quantity + pfActual o q,
    average_fill_price :=
      (o.average_fill_price * o.filled_quantity + p * pfActual o q) /
        (o.filled_quantity + pfActual o q),
    status := pfNewStatus o q }

/-- The Fill record appended by a successful process_fill. -/
def pfFill (oid : Nat) (o : Order) (q p fee : ℚ) : Fill :=
  mkFill oid o.symbol o.side (pfActual o q) p fee

/-- The active-order set after a successful process_fill: the order id is
deleted exactly when the order became fully filled. -/
def pfActive (m : OrderManager) (oid : Nat) (o : Order) (q : ℚ) : List Nat :=
  if o.quantity ≤ o.filled_quantity + pfActual o q then
    m.active_orders.filter (fun x => x ≠ oid)
  else m.active_orders

theorem dinsert_dinsert {κ α : Type} [DecidableEq κ] (k : κ) (v1 v2 : α)
    (d : List (κ × α)) : dinsert k v2 (dinsert k v1 d) = dinsert k v2 d := by
  induction d with
  | nil => simp [dinsert]
  | cons hd tl ih =>
    obtain ⟨k2, w⟩ := hd
    by_cases h : k = k2 <;> simp [dinsert, h, ih]

theorem process_fill_success (m : OrderManager) (oid : Nat) (q p fee : ℚ) (o : Order)
    (ho : dlookup oid m.orders = some o) (hact : o.is_active = true)
    (hpos : 0 < qmin q (o.quantity - o.filled_quantity)) :
    process_fill m oid q p fee =
      ({ orders := dinsert oid (pfOrder o q p) m.orders,
         fills := m.fills ++ [pfFill oid o q p fee],
         active_orders := pfActive m oid o q,
         order_counter := m.order_counter },
       some (pfFill oid o q p fee),
       [OrderEvent.statusChange oid o.status (pfNewStatus o q),
        OrderEvent.fillEvent (pfFill oid o q p fee)]) := by
  have hne : ¬ (qmin q (o.quantity - o.filled_quantity) ≤ 0) := not_le.mpr hpos
  unfold process_fill
  rw [ho]
  simp only [hact, Order.unfilled_quantity, if_neg hne, Bool.true_eq_false, if_false]
  by_cases hc : o.quantity ≤ o.filled_quantity + qmin q (o.quantity - o.filled_quantity) <;>
    simp [hc, update_order_status, dlookup_dinsert_self, dinsert_dinsert,
      pfOrder, pfFill, pfActual, pfNewStatus, pfActive]

/-! ### Concrete scenario: one order of quantity 10, fills (6, 100) and (4, 110) -/

def demoSymbol : String := "AAPL"

def demoM0 : OrderManager :=
  (create_order OrderManager.init demoSymbol OrderSide.BUY OrderType.MARKET 10 none none).1

def demoOrder1 : Order :=
  { id := 1, symbol := demoSymbol, side := OrderSide.BUY,
    order_type := OrderType.MARKET, quantity := 10, status := OrderStatus.NEW }

def demoM1 : OrderManager := (process_fill demoM0 1 6 100 0).1

def demoM2 : OrderManager := (process_fill demoM1 1 4 110 0).1

/-- C1: on an existing active order with a valid pre-state, process_fill clamps
the fill to the remaining quantity (so 0 ≤ filled_quantity ≤ quantity holds
afterwards), updates the running volume-weighted average fill price to
(avg × filled + p × delta) / (filled + delta), appends exactly one Fill
record, and sets the status to FILLED exactly when filled_quantity equals
quantity and to PARTIALLY_FILLED otherwise; moreover the concrete sequence
quantity 10 with fills (6, 100) then (4, 110) ends with average fill price
104 and status FILLED. -/
theorem C1_process_fill_clamp_avg_status (m : OrderManager) (oid : Nat)
    (q p fee : ℚ) (o : Order)
    (ho : dlookup oid m.orders = some o) (hact : o.is_active = true)
    (h0 : 0 ≤ o.filled_quantity) (h1 : o.filled_quantity ≤ o.quantity)
    (hpos : 0 < qmin q (o.quantity - o.filled_quantity)) :
    (∃ o1 : Order,
      dlookup oid (process_fill m oid q p fee).1.orders = some o1 ∧
      o1.quantity = o.quantity ∧
      o1.filled_quantity = o.filled_quantity + qmin q (o.quantity - o.filled_quantity) ∧
      0 ≤ o1.filled_quantity ∧ o1.filled_quantity ≤ o1.quantity ∧
      o1.average_fill_price =
        (o.average_fill_price * o.filled_quantity +
          p * qmin q (o.quantity - o.filled_quantity)) / o1.filled_quantity ∧
      (o1.status = OrderStatus.FILLED ↔ o1.filled_quantity = o1.quantity) ∧
      (o1.status = OrderStatus.FILLED ∨ o1.status = OrderStatus.PARTIALLY_FILLED) ∧
      (process_fill m oid q p fee).1.fills =
        m.fills ++ [mkFill oid o.symbol o.side
          (qmin q (o.quantity - o.filled_quantity)) p fee]) ∧
    ((dlookup 1 demoM2.orders).map Order.average_fill_price = some 104 ∧
     (dlookup 1 demoM2.orders).map Order.status = some OrderStatus.FILLED) := by
  have hmr : qmin q (o.quantity - o.filled_quantity) ≤ o.quantity - o.filled_quantity :=
    min_le_right ..
  constructor
  · rw [process_fill_success m oid q p fee o ho hact hpos]
    refine ⟨pfOrder o q p, dlookup_dinsert_self .., rfl, rfl, ?_, ?_, rfl, ?_, ?_, rfl⟩
    · show 0 ≤ o.filled_quantity + pfActual o q
      have : 0 < pfActual o q := hpos
      linarith
    · show o.filled_quantity + pfActual o q ≤ o.quantity
      have : pfActual o q ≤ o.quantity - o.filled_quantity := hmr
      linarith
    · show pfNewStatus o q = OrderStatus.FILLED ↔
        o.filled_quantity + pfActual o q = o.quantity
      unfold pfNewStatus
      by_cases hc : o.quantity ≤ o.filled_quantity + pfActual o q
      · have : o.filled_quantity + pfActual o q = o.quantity := by
          have : pfActual o q ≤ o.quantity - o.filled_quantity := hmr
          linarith
        simp [hc, this]
      · have : o.filled_quantity + pfActual o q ≠ o.quantity := by
          intro he
          exact hc (le_of_eq he.symm)
        simp [hc, this]
    · show pfNewStatus o q = OrderStatus.FILLED ∨
        pfNewStatus o q = OrderStatus.PARTIALLY_FILLED
      unfold pfNewStatus
      by_cases hc : o.quantity ≤ o.filled_quantity + pfActual o q <;> simp [hc]
  · exact ⟨by decide, by decide⟩

/-- Witness for C1 at the concrete input: the manager holding the single NEW
order of quantity 10 and a fill request of 6 at price 100. -/
theorem C1_process_fill_clamp_avg_status_witness :
    (∃ o1 : Order,
      dlookup 1 (process_fill demoM0 1 6 100 0).1.orders = some o1 ∧
      o1.quantity = demoOrder1.quantity ∧
      o1.filled_quantity = demoOrder1.filled_quantity +
        qmin 6 (demoOrder1.quantity - demoOrder1.filled_quantity) ∧
      0 ≤ o1.filled_quantity ∧ o1.filled_quantity ≤ o1.quantity ∧
      o1.average_fill_price =
        (demoOrder1.average_fill_price * demoOrder1.filled_quantity +
          100 * qmin 6 (demoOrder1.quantity - demoOrder1.filled_quantity)) /
          o1.filled_quantity ∧
      (o1.status = OrderStatus.FILLED ↔ o1.filled_quantity = o1.quantity) ∧
      (o1.status = OrderStatus.FILLED ∨ o1.status = OrderStatus.PARTIALLY_FILLED) ∧
      (process_fill demoM0 1 6 100 0).1.fills =
        demoM0.fills ++ [mkFill 1 demoOrder1.symbol demoOrder1.side
          (qmin 6 (demoOrder1.quantity - demoOrder1.filled_quantity)) 100 0]) ∧
    ((dlookup 1 demoM2.orders).map Order.average_fill_price = some 104 ∧
     (dlookup 1 demoM2.orders).map Order.status = some OrderStatus.FILLED) :=
  C1_process_fill_clamp_avg_status demoM0 1 6 100 0 demoOrder1
    (by decide) (by decide) (by decide) (by decide) (by decide)

/-- C3 (amended): create_order performs no validation at all: for every
requested quantity (including zero and negative values) and every order type,
with or without limit or stop prices, it returns an Order with status NEW and
the requested quantity, registered under the next counter id both in the
order map and in the active set. -/
theorem C3_create_order_no_validation (m : OrderManager) (symbol : String)
    (side : OrderSide) (order_type : OrderType) (quantity : ℚ)
    (price stop_price : Option ℚ) :
    (create_order m symbol side order_type quantity price stop_price).2.1.status =
      OrderStatus.NEW ∧
    (create_order m symbol side order_type quantity price stop_price).2.1.quantity =
      quantity ∧
    dlookup (m.order_counter + 1)
        (create_order m symbol side order_type quantity price stop_price).1.orders =
      some (create_order m symbol side order_type quantity price stop_price).2.1 ∧
    (m.order_counter + 1) ∈
      (create_order m symbol side order_type quantity price stop_price).1.active_orders := by
  unfold create_order
  simp only [update_order_status, dlookup_dinsert_self, dinsert_dinsert]
  simp [dlookup_dinsert_self]

/-- C3 counterexample: the invalid intent quantity 0 with a LIMIT type and no
limit price is not rejected: an Order is created with status NEW and is
registered in the order map and the active set. -/
theorem C3_counterexample :
    (create_order OrderManager.init demoSymbol OrderSide.BUY OrderType.LIMIT
        0 none none).2.1.status = OrderStatus.NEW ∧
    dlookup 1 (create_order OrderManager.init demoSymbol OrderSide.BUY
        OrderType.LIMIT 0 none none).1.orders =
      some (create_order OrderManager.init demoSymbol OrderSide.BUY
        OrderType.LIMIT 0 none none).2.1 ∧
    1 ∈ (create_order OrderManager.init demoSymbol OrderSide.BUY OrderType.LIMIT
        0 none none).1.active_orders := by
  refine ⟨by decide, by decide, by decide⟩

/-- C4 (amended): cancel_order on an id in the active set whose order has a
non-terminal status sets the status to CANCELLED, removes the id from the
active set and returns true; when the id is not in the active set (which
includes every FILLED order, since process_fill removes filled orders from
the active set) it returns false with the state unchanged and no events, and
when the order's status is terminal it also returns false with the state
unchanged; no exception is involved anywhere. -/
theorem C4_cancel_order_behaviour (m : OrderManager) (oid : Nat) (o : Order)
    (hmem : oid ∈ m.active_orders)
    (ho : dlookup oid m.orders = some o)
    (hterm : ¬(o.status = OrderStatus.FILLED ∨ o.status = OrderStatus.CANCELLED ∨
      o.status = OrderStatus.REJECTED)) :
    ((cancel_order m oid).2.1 = true ∧
     dlookup oid (cancel_order m oid).1.orders =
       some { o with status := OrderStatus.CANCELLED } ∧
     oid ∉ (cancel_order m oid).1.active_orders) ∧
    (∀ (m2 : OrderManager) (oid2 : Nat), oid2 ∉ m2.active_orders →
      cancel_order m2 oid2 = (m2, false, [])) ∧
    (∀ (m2 : OrderManager) (oid2 : Nat) (o2 : Order),
      dlookup oid2 m2.orders = some o2 →
      (o2.status = OrderStatus.FILLED ∨ o2.status = OrderStatus.CANCELLED ∨
        o2.status = OrderStatus.REJECTED) →
      cancel_order m2 oid2 = (m2, false, [])) := by
  refine ⟨?_, ?_, ?_⟩
  · unfold cancel_order
    rw [if_pos hmem, ho]
    simp only [update_order_status, ho, if_neg hterm]
    simp [dlookup_dinsert_self, List.mem_filter]
  · intro m2 oid2 hn
    unfold cancel_order
    rw [if_neg hn]
  · intro m2 oid2 o2 ho2 hterm2
    unfold cancel_order
    by_cases hmem2 : oid2 ∈ m2.active_orders
    · rw [if_pos hmem2, ho2]
      exact if_pos hterm2
    · rw [if_neg hmem2]

/-- Witness for C4: the manager holding one NEW order of quantity 10 and the
cancellation of that order. -/
theorem C4_cancel_order_behaviour_witness :
    ((cancel_order demoM0 1).2.1 = true ∧
     dlookup 1 (cancel_order demoM0 1).1.orders =
       some { demoOrder1 with status := OrderStatus.CANCELLED } ∧
     1 ∉ (cancel_order demoM0 1).1.active_orders) ∧
    (∀ (m2 : OrderManager) (oid2 : Nat), oid2 ∉ m2.active_orders →
      cancel_order m2 oid2 = (m2, false, [])) ∧
    (∀ (m2 : OrderManager) (oid2 : Nat) (o2 : Order),
      dlookup oid2 m2.orders = some o2 →
      (o2.status = OrderStatus.FILLED ∨ o2.status = OrderStatus.CANCELLED ∨
        o2.status = OrderStatus.REJECTED) →
      cancel_order m2 oid2 = (m2, false, [])) :=
  C4_cancel_order_behaviour demoM0 1 demoOrder1 (by decide) (by decide) (by decide)

/-- C4 counterexample: after the order is completely filled its status is
FILLED, and cancelling it returns the plain boolean false with the manager
unchanged and no event fired; the source signals no error of any kind
(cancel_order returns a bool on every path), contradicting the claimed
NotFoundError and InvalidStateError failures. -/
theorem C4_counterexample :
    cancel_order demoM2 1 = (demoM2, false, []) ∧
    (dlookup 1 demoM2.orders).map Order.status = some OrderStatus.FILLED := by
  refine ⟨by decide, by decide⟩

/-- C8 (amended): every successful process_fill delivers exactly two events,
the status-change event first and the fill event second, and both the fill
append and the status update are applied to the manager state. -/
theorem C8_event_order (m : OrderManager) (oid : Nat) (q p fee : ℚ) (o : Order)
    (ho : dlookup oid m.orders = some o) (hact : o.is_active = true)
    (hpos : 0 < qmin q (o.quantity - o.filled_quantity)) :
    (process_fill m oid q p fee).2.2 =
      [OrderEvent.statusChange oid o.status (pfNewStatus o q),
       OrderEvent.fillEvent (pfFill oid o q p fee)] ∧
    (process_fill m oid q p fee).1.fills = m.fills ++ [pfFill oid o q p fee] ∧
    dlookup oid (process_fill m oid q p fee).1.orders = some (pfOrder o q p) := by
  rw [process_fill_success m oid q p fee o ho hact hpos]
  exact ⟨rfl, rfl, dlookup_dinsert_self ..⟩

/-- Witness for C8 (amended) at the concrete fill of 6 at price 100 on the
NEW order of quantity 10. -/
theorem C8_event_order_witness :
    (process_fill demoM0 1 6 100 0).2.2 =
      [OrderEvent.statusChange 1 demoOrder1.status (pfNewStatus demoOrder1 6),
       OrderEvent.fillEvent (pfFill 1 demoOrder1 6 100 0)] ∧
    (process_fill demoM0 1 6 100 0).1.fills =
      demoM0.fills ++ [pfFill 1 demoOrder1 6 100 0] ∧
    dlookup 1 (process_fill demoM0 1 6 100 0).1.orders =
      some (pfOrder demoOrder1 6 100) :=
  C8_event_order demoM0 1 6 100 0 demoOrder1 (by decide) (by decide) (by decide)

/-- C8 counterexample: on a concrete successful fill the delivered event
order is status-change event first and fill event second (the trace mapped
through the fill-event discriminator is [false, true]), so the fill event is
not delivered first as claimed. -/
theorem C8_counterexample :
    (process_fill demoM0 1 6 100 0).2.2.map OrderEvent.isFillEv = [false, true] := by
  decide

/-- C9: on each failure path of process_fill — unknown order id, inactive
order, or clamped fill quantity at most zero — the call returns none, the
whole manager state is unchanged, and no observer event fires. -/
theorem C9_process_fill_failure_identity (m : OrderManager) (oid : Nat)
    (q p fee : ℚ)
    (h : dlookup oid m.orders = none ∨
      ∃ o : Order, dlookup oid m.orders = some o ∧
        (o.is_active = false ∨ qmin q (o.quantity - o.filled_quantity) ≤ 0)) :
    process_fill m oid q p fee = (m, none, []) := by
  rcases h with h | ⟨o, ho, hcase⟩
  · unfold process_fill
    rw [h]
  · unfold process_fill
    rw [ho]
    rcases hcase with hin | hle
    · simp [hin]
    · by_cases hb : o.is_active = false
      · simp [hb]
      · simp [hb, Order.unfilled_quantity, hle]

/-- Witness for C9: a fill against an empty manager (unknown id). -/
theorem C9_process_fill_failure_identity_witness :
    process_fill OrderManager.init 1 1 1 0 = (OrderManager.init, none, []) :=
  C9_process_fill_failure_identity OrderManager.init 1 1 1 0 (Or.inl (by decide))

/-! ### Risk rules engine (src/risk/risk_rules.py) -/

/-- The risk context passed to a rule check; the source reads each entry with
context.get, so every entry is optional. -/
structure RiskContext where
  portfolio_value : Option ℚ := none
  position_size : Option ℚ := none
  trade_pnl : Option ℚ := none
deriving DecidableEq

/-- A violation record; the reason text and timestamp are display-only in
the source and omitted, keeping the rule name that identifies the record. -/
structure Violation where
  rule : String
deriving DecidableEq

def maxDrawdownRuleName : String := "MaxDrawdownRule"

def maxPositionSizeRuleName : String := "MaxPositionSizeRule"

/-- Internal state of a MaxDrawdownRule instance. -/
structure MaxDrawdownRuleState where
  max_drawdown_percent : ℚ
  peak_value : ℚ := 0
  current_value : ℚ := 0
  violations : List Violation := []
deriving DecidableEq

/-- MaxDrawdownRule.check: when the context carries a portfolio value, record
it as current and raise the peak if exceeded; then, when the peak is
positive, compare the percentage drawdown against the threshold, recording a
violation and returning true when it is exceeded. -/
def maxDrawdownCheck (s : MaxDrawdownRuleState) (ctx : RiskContext) :
    Bool × MaxDrawdownRuleState :=
  let s1 :=
    match ctx.portfolio_value with
    | some v =>
      { s with current_value := v,
               peak_value := if v > s.peak_value then v else s.peak_value }
    | none => s
  if s1.peak_value > 0 then
    let drawdown_percent := (s1.peak_value - s1.current_value) / s1.peak_value * 100
    if drawdown_percent > s1.max_drawdown_percent then
      (true, { s1 with violations :=
        s1.violations ++ [{ rule := maxDrawdownRuleName }] })
    else (false, s1)
  else (false, s1)

/-- MaxDrawdownRule.reset_peak. -/
def maxDrawdownResetPeak (s : MaxDrawdownRuleState) : MaxDrawdownRuleState :=
  { s with peak_value := 0, violations := [] }

def ddRule0 : MaxDrawdownRuleState := { max_drawdown_percent := 10 }

def ddStep1 : Bool × MaxDrawdownRuleState :=
  maxDrawdownCheck ddRule0 { portfolio_value := some 100000 }

def ddStep2 : Bool × MaxDrawdownRuleState :=
  maxDrawdownCheck ddStep1.2 { portfolio_value := some 95000 }

def ddStep3 : Bool × MaxDrawdownRuleState :=
  maxDrawdownCheck ddStep2.2 { portfolio_value := some 89000 }

theorem if_gt_eq_max (a b : ℚ) : (if b > a then b else a) = max a b := by
  rcases le_or_lt b a with h | h
  · rw [if_neg (not_lt.mpr h), max_eq_left h]
  · rw [if_pos h, max_eq_right h.le]

/-- C5: on an observation of a positive portfolio value, MaxDrawdownRule
tracks the running peak (the maximum of the stored peak and the observation)
and reports a violation, appending exactly one violation record, exactly when
(peak - current) / peak times 100 exceeds the threshold; on the sequence
100000, 95000, 89000 at a 10 percent threshold the first two checks return
false and the third returns true with exactly one violation recorded. -/
theorem C5_max_drawdown_rule (s : MaxDrawdownRuleState) (v : ℚ)
    (hpeak : 0 ≤ s.peak_value) (hv : 0 < v) :
    ((maxDrawdownCheck s { portfolio_value := some v }).2.peak_value =
        max s.peak_value v ∧
     ((maxDrawdownCheck s { portfolio_value := some v }).1 = true ↔
        (max s.peak_value v - v) / max s.peak_value v * 100 >
          s.max_drawdown_percent) ∧
     (maxDrawdownCheck s { portfolio_value := some v }).2.violations =
        s.violations ++
          (if (max s.peak_value v - v) / max s.peak_value v * 100 >
              s.max_drawdown_percent
           then [{ rule := maxDrawdownRuleName }] else [])) ∧
    (ddStep1.1 = false ∧ ddStep2.1 = false ∧ ddStep3.1 = true ∧
     ddStep3.2.violations = [{ rule := maxDrawdownRuleName }]) := by
  have hmax : 0 < max s.peak_value v := lt_max_of_lt_right hv
  constructor
  · unfold maxDrawdownCheck
    simp only [if_gt_eq_max, if_pos hmax]
    by_cases hdd : (max s.peak_value v - v) / max s.peak_value v * 100 >
        s.max_drawdown_percent
    · simp [hdd]
    · simp [hdd]
  · refine ⟨by decide, by decide, by decide, by decide⟩

/-- Witness for C5 at the fresh 10-percent rule and observation 100000. -/
theorem C5_max_drawdown_rule_witness :
    ((maxDrawdownCheck ddRule0 { portfolio_value := some 100000 }).2.peak_value =
        max ddRule0.peak_value 100000 ∧
     ((maxDrawdownCheck ddRule0 { portfolio_value := some 100000 }).1 = true ↔
        (max ddRule0.peak_value 100000 - 100000) / max ddRule0.peak_value 100000 *
          100 > ddRule0.max_drawdown_percent) ∧
     (maxDrawdownCheck ddRule0 { portfolio_value := some 100000 }).2.violations =
        ddRule0.violations ++
          (if (max ddRule0.peak_value 100000 - 100000) /
              max ddRule0.peak_value 100000 * 100 > ddRule0.max_drawdown_percent
           then [{ rule := maxDrawdownRuleName }] else [])) ∧
    (ddStep1.1 = false ∧ ddStep2.1 = false ∧ ddStep3.1 = true ∧
     ddStep3.2.violations = [{ rule := maxDrawdownRuleName }]) :=
  C5_max_drawdown_rule ddRule0 100000 (by decide) (by decide)

/-- A rule held by the engine, modelling an arbitrary RiskRule subclass: the
check behaviour is a function of the context and the rule's accumulated
violation list, returning the violated flag and the updated accumulated list,
or none when the check raises an exception. -/
structure EngineRule where
  name : String
  enabled : Bool
  violations : List Violation
  checkFn : RiskContext → List Violation → Option (Bool × List Violation)

/-- One iteration of the loop body of RiskRulesEngine.check_rules for one
rule: a disabled rule is skipped; a raising rule is caught and contributes
nothing; a violated rule contributes its whole accumulated violation list
(rule.get_violations()). Returns the updated rule and its contribution. -/
def runEngineRule (ctx : RiskContext) (r : EngineRule) : EngineRule × List Violation :=
  if r.enabled then
    match r.checkFn ctx r.violations with
    | some (violated, vs) =>
      ({ r with violations := vs }, if violated then vs else [])
    | none => (r, [])
  else (r, [])

structure RiskRulesEngine where
  rules : List EngineRule
  enabled : Bool := true

/-- RiskRulesEngine.check_rules: when globally disabled return no violations;
otherwise loop over the rules, isolating each rule's exception, and
accumulate the contributions in order. -/
def check_rules (e : RiskRulesEngine) (ctx : RiskContext) :
    RiskRulesEngine × List Violation :=
  if e.enabled = false then (e, [])
  else
    let r := e.rules.foldl
      (fun (acc : List EngineRule × List Violation) rule =>
        let s := runEngineRule ctx rule
        (acc.1 ++ [s.1], acc.2 ++ s.2))
      ([], [])
    ({ e with rules := r.1 }, r.2)

theorem check_rules_foldl (ctx : RiskContext) (l : List EngineRule)
    (a : List EngineRule) (b : List Violation) :
    l.foldl
      (fun (acc : List EngineRule × List Violation) rule =>
        let s := runEngineRule ctx rule
        (acc.1 ++ [s.1], acc.2 ++ s.2))
      (a, b) =
    (a ++ l.map (fun r => (runEngineRule ctx r).1),
     b ++ (l.map (fun r => (runEngineRule ctx r).2)).flatten) := by
  induction l generalizing a b with
  | nil => simp
  | cons hd tl ih => simp [List.foldl_cons, ih]

/-- C7 (amended): check_rules on an enabled engine processes every rule
independently: the resulting rule list is the pointwise update of each rule
by its own check (so an earlier rule raising an exception never prevents a
later rule from being evaluated), and the returned list is the concatenation,
over rules whose check reported a violation in this call, of each such rule's
entire accumulated violation list — including violations recorded by earlier
calls, not only the newly recorded ones. -/
theorem C7_check_rules_isolation_and_return (e : RiskRulesEngine)
    (ctx : RiskContext) (hen : e.enabled = true) :
    (check_rules e ctx).1.rules = e.rules.map (fun r => (runEngineRule ctx r).1) ∧
    (check_rules e ctx).2 =
      (e.rules.map (fun r => (runEngineRule ctx r).2)).flatten := by
  unfold check_rules
  rw [hen]
  simp only [Bool.true_eq_false, if_false, check_rules_foldl]
  exact ⟨by simp, by simp⟩

/-- MaxPositionSizeRule.check as an engine-rule behaviour: reads
position_size (default 0) from the context; when it exceeds max_size,
appends one violation and reports true, otherwise reports false. It never
raises. -/
def maxPositionSizeCheckFn (max_size : ℚ) (ctx : RiskContext)
    (vs : List Violation) : Option (Bool × List Violation) :=
  let position_size := ctx.position_size.getD 0
  if position_size > max_size then
    some (true, vs ++ [{ rule := maxPositionSizeRuleName }])
  else some (false, vs)

/-- A fresh MaxPositionSizeRule instance. -/
def mkMaxPositionSizeRule (max_size : ℚ) : EngineRule :=
  { name := maxPositionSizeRuleName, enabled := true, violations := [],
    checkFn := maxPositionSizeCheckFn max_size }

def demoEngine : RiskRulesEngine := { rules := [mkMaxPositionSizeRule 10] }

def demoCtx : RiskContext := { position_size := some 20 }

/-- Witness for C7 (amended) on the engine holding one fresh
MaxPositionSizeRule with limit 10 and a context of position size 20. -/
theorem C7_check_rules_isolation_and_return_witness :
    (check_rules demoEngine demoCtx).1.rules =
      demoEngine.rules.map (fun r => (runEngineRule demoCtx r).1) ∧
    (check_rules demoEngine demoCtx).2 =
      (demoEngine.rules.map (fun r => (runEngineRule demoCtx r).2)).flatten :=
  C7_check_rules_isolation_and_return demoEngine demoCtx rfl

/-- C7 counterexample: calling check_rules twice on the same engine with the
same violating context returns one violation from the first call but two
from the second call, although only one violation is newly recorded per
call; the return value is therefore not the concatenation of only the newly
recorded violations. -/
theorem C7_counterexample :
    (check_rules demoEngine demoCtx).2.length = 1 ∧
    (check_rules (check_rules demoEngine demoCtx).1 demoCtx).2.length = 2 := by
  constructor
  · rfl
  · rfl

/-! ### Position manager (src/risk/position_manager.py; the Position class is
from src/data_interface_framework.py) -/

/-- Absolute value written out as the source's abs so that it evaluates by
kernel reduction. -/
def qabs (a : ℚ) : ℚ := if a < 0 then -a else a

theorem dlookup_derase_self {κ α : Type} [DecidableEq κ] (k : κ)
    (d : List (κ × α)) : dlookup k (derase k d) = none := by
  induction d with
  | nil => simp [derase, dlookup]
  | cons hd tl ih =>
    obtain ⟨k2, v2⟩ := hd
    by_cases h : k = k2
    · subst h
      simp [derase, ih]
    · simp [derase, dlookup, h, ih]

/-- Position._calculate_pnl: unrealized profit and loss from the entry price,
the mark price and the signed quantity. -/
def positionPnl (quantity avg_entry_price current_price : ℚ) : ℚ :=
  if quantity = 0 then 0
  else if quantity > 0 then (current_price - avg_entry_price) * quantity
  else (avg_entry_price - current_price) * qabs quantity

/-- A position; stop_loss, take_profit and side are the fields the position
manager attaches after construction (the asset-type tag is display-only and
omitted). -/
structure Position where
  symbol : String
  quantity : ℚ
  avg_entry_price : ℚ
  current_price : ℚ
  pnl : ℚ
  stop_loss : Option ℚ := none
  take_profit : Option ℚ := none
  side : String := "buy"
deriving DecidableEq

/-- A trade-log entry as appended by open_position and close_position. -/
structure TradeEntry where
  symbol : String
  action : String
  side : String
  quantity : ℚ
  price : ℚ
  profit_loss : Option ℚ := none
deriving DecidableEq

structure PositionManager where
  initial_capital : ℚ
  current_capital : ℚ
  max_position_size : ℚ
  max_risk_per_trade : ℚ
  positions : List (String × Position)
  trades : List TradeEntry
deriving DecidableEq

/-- PositionManager constructor: both capital fields start at the initial
capital; the position map and trade log start empty. -/
def mkPositionManager (initial_capital max_position_size max_risk_per_trade : ℚ) :
    PositionManager :=
  { initial_capital := initial_capital, current_capital := initial_capital,
    max_position_size := max_position_size,
    max_risk_per_trade := max_risk_per_trade, positions := [], trades := [] }

/-- PositionManager.open_position: a buy side stores the quantity positively,
a sell side negatively; the position is created marked at the entry price,
stored under its symbol (overwriting any previous one) and an open entry is
appended to the trade log. -/
def open_position (pm : PositionManager) (symbol : String) (side : String)
    (quantity entry_price : ℚ) (stop_loss take_profit : Option ℚ) :
    PositionManager × Position :=
  let qty := if side = "buy" then quantity else -quantity
  let position : Position :=
    { symbol := symbol, quantity := qty, avg_entry_price := entry_price,
      current_price := entry_price,
      pnl := positionPnl qty entry_price entry_price,
      stop_loss := stop_loss, take_profit := take_profit, side := side }
  let entry : TradeEntry :=
    { symbol := symbol, action := "open", side := side,
      quantity := quantity, price := entry_price }
  ({ pm with positions := dinsert symbol position pm.positions,
             trades := pm.trades ++ [entry] },
   position)

/-- PositionManager.close_position: returns 0 and changes nothing when no
position exists for the symbol; otherwise computes the realized profit and
loss ((exit - entry) times quantity for a buy side, (entry - exit) times the
absolute quantity otherwise), adds it to the current capital, appends a close
entry to the trade log, and deletes the position. -/
def close_position (pm : PositionManager) (symbol : String) (exit_price : ℚ) :
    PositionManager × ℚ :=
  match dlookup symbol pm.positions with
  | none => (pm, 0)
  | some position =>
    let profit_loss :=
      if position.side = "buy" then
        (exit_price - position.avg_entry_price) * position.quantity
      else (position.avg_entry_price - exit_price) * qabs position.quantity
    let entry : TradeEntry :=
      { symbol := symbol, action := "close", side := position.side,
        quantity := qabs position.quantity, price := exit_price,
        profit_loss := some profit_loss }
    ({ pm with current_capital := pm.current_capital + profit_loss,
               trades := pm.trades ++ [entry],
               positions := derase symbol pm.positions },
     profit_loss)

/-- PositionManager.get_all_positions. -/
def get_all_positions (pm : PositionManager) : List Position :=
  pm.positions.map Prod.snd

def demoPM0 : PositionManager := mkPositionManager 100000 (1/5) (1/50)

def demoPM1 : PositionManager :=
  (open_position demoPM0 demoSymbol "buy" 10 150 none none).1

/-- C6: close_position on an existing position returns the realized profit
and loss — (exit - entry) times quantity for a buy-side position, mirrored
for a sell side — adds exactly that amount to the current capital, and
removes the position from the position map, so the symbol no longer resolves
and get_all_positions over the remaining map omits it; on an unknown symbol
it returns 0 with the manager unchanged (no error); concretely, a long
position of 10 units entered at 150 and closed at 160 returns exactly 100
and leaves the position list empty. -/
theorem C6_close_position (pm : PositionManager) (symbol : String)
    (exit_price : ℚ) (pos : Position)
    (hp : dlookup symbol pm.positions = some pos) :
    ((pos.side = "buy" →
        (close_position pm symbol exit_price).2 =
          (exit_price - pos.avg_entry_price) * pos.quantity) ∧
     (pos.side ≠ "buy" →
        (close_position pm symbol exit_price).2 =
          (pos.avg_entry_price - exit_price) * qabs pos.quantity) ∧
     (close_position pm symbol exit_price).1.current_capital =
        pm.current_capital + (close_position pm symbol exit_price).2 ∧
     dlookup symbol (close_position pm symbol exit_price).1.positions = none ∧
     get_all_positions (close_position pm symbol exit_price).1 =
        (derase symbol pm.positions).map Prod.snd) ∧
    (∀ (pm2 : PositionManager) (sym2 : String) (price2 : ℚ),
      dlookup sym2 pm2.positions = none →
      close_position pm2 sym2 price2 = (pm2, 0)) ∧
    ((close_position demoPM1 demoSymbol 160).2 = 100 ∧
     get_all_positions (close_position demoPM1 demoSymbol 160).1 = [] ∧
     (close_position demoPM1 demoSymbol 160).1.current_capital = 100100) := by
  refine ⟨?_, ?_, by decide, by decide, by decide⟩
  · unfold close_position
    rw [hp]
    by_cases hside : pos.side = "buy"
    · simp only [hside]
      refine ⟨fun _ => by simp, fun hns => absurd rfl hns, ?_, ?_, ?_⟩
      · simp
      · simp [dlookup_derase_self]
      · simp [get_all_positions]
    · simp only [hside]
      refine ⟨fun hs => hs.elim, fun _ => by simp [hside], ?_, ?_, ?_⟩
      · simp
      · simp [dlookup_derase_self]
      · simp [get_all_positions]
  · intro pm2 sym2 price2 hn
    unfold close_position
    rw [hn]

/-- Witness for C6 at the concrete long position of 10 units entered at 150,
closed at 160. -/
theorem C6_close_position_witness :
    (((open_position demoPM0 demoSymbol "buy" 10 150 none none).2.side = "buy" →
        (close_position demoPM1 demoSymbol 160).2 =
          (160 - (open_position demoPM0 demoSymbol "buy" 10 150 none
            none).2.avg_entry_price) *
            (open_position demoPM0 demoSymbol "buy" 10 150 none none).2.quantity) ∧
     ((open_position demoPM0 demoSymbol "buy" 10 150 none none).2.side ≠ "buy" →
        (close_position demoPM1 demoSymbol 160).2 =
          ((open_position demoPM0 demoSymbol "buy" 10 150 none
            none).2.avg_entry_price - 160) *
            qabs (open_position demoPM0 demoSymbol "buy" 10 150 none
              none).2.quantity) ∧
     (close_position demoPM1 demoSymbol 160).1.current_capital =
        demoPM1.current_capital + (close_position demoPM1 demoSymbol 160).2 ∧
     dlookup demoSymbol (close_position demoPM1 demoSymbol 160).1.positions =
        none ∧
     get_all_positions (close_position demoPM1 demoSymbol 160).1 =
        (derase demoSymbol demoPM1.positions).map Prod.snd) ∧
    (∀ (pm2 : PositionManager) (sym2 : String) (price2 : ℚ),
      dlookup sym2 pm2.positions = none →
      close_position pm2 sym2 price2 = (pm2, 0)) ∧
    ((close_position demoPM1 demoSymbol 160).2 = 100 ∧
     get_all_positions (close_position demoPM1 demoSymbol 160).1 = [] ∧
     (close_position demoPM1 demoSymbol 160).1.current_capital = 100100) :=
  C6_close_position demoPM1 demoSymbol 160
    (open_position demoPM0 demoSymbol "buy" 10 150 none none).2 (by decide)

/-! ### Execution algorithms (src/trading/execution_algorithms.py) -/

/-- A market-data bar (one row of the OHLCV window, most recent last). -/
structure Bar where
  open_p : ℚ
  high : ℚ
  low : ℚ
  close : ℚ
  volume : ℚ
deriving DecidableEq

/-- The int() conversion of Python applied to a rational: truncation toward
zero, written on the numerator and denominator. -/
def pyInt (q : ℚ) : ℤ := q.num.tdiv q.den

/-- Sum of the quantity components of a slice list. -/
def sliceQtySum (l : List (ℚ × ℚ)) : ℚ := (l.map Prod.fst).sum

/-- IcebergStrategy.execute with the given display size: one displayed slice
of min(display, total), then max(1, int(remaining / display)) loop rounds,
each emitting min(display, remaining) while remaining is positive. The source
reads the last bar unconditionally, so an empty window (IndexError) is
modelled as none. -/
def icebergExecute (display_size : ℚ) (order : Order) (market : List Bar) :
    Option (List (ℚ × ℚ)) :=
  match market.getLast? with
  | none => none
  | some lastBar =>
    let total_quantity := order.quantity
    let displayed_quantity := qmin display_size total_quantity
    let current_price := lastBar.close
    let displayPrice :=
      if order.side = OrderSide.BUY then current_price * (10002/10000)
      else current_price * (9998/10000)
    let hiddenPrice :=
      if order.side = OrderSide.BUY then current_price * (10003/10000)
      else current_price * (9997/10000)
    let hidden_chunks :=
      max 1 (pyInt ((total_quantity - displayed_quantity) / display_size)).toNat
    let r := (List.range hidden_chunks).foldl
      (fun (acc : List (ℚ × ℚ) × ℚ) _ =>
        if 0 < acc.2 then
          let chunk_size := qmin display_size acc.2
          (acc.1 ++ [(chunk_size, hiddenPrice)], acc.2 - chunk_size)
        else acc)
      ([(displayed_quantity, displayPrice)], total_quantity - displayed_quantity)
    some r.1

def demoBar : Bar :=
  { open_p := 100, high := 100, low := 100, close := 100, volume := 1000 }

def iceOrder : Order :=
  { id := 1, symbol := demoSymbol, side := OrderSide.BUY,
    order_type := OrderType.MARKET, quantity := 250,
    status := OrderStatus.NEW }

/-- C2: the Iceberg strategy violates the exact-sum contract: on a parent
order of quantity 250 with the default display size 100 and a one-bar window
it emits slices of total quantity 200, because the hidden-chunk count uses
int (truncation) of remaining / display instead of its ceiling, dropping the
final partial chunk. -/
theorem C2_iceberg_sum_violation :
    iceOrder.quantity = 250 ∧
    (icebergExecute 100 iceOrder [demoBar]).map sliceQtySum = some 200 := by
  refine ⟨by decide, by decide⟩

/-- The trailing n bars of the window (pandas tail(n)). -/
def lastBars (n : Nat) (market : List Bar) : List Bar :=
  market.drop (market.length - n)

/-- Mean of the volume column of a window (pandas mean). -/
def avgVolume (bars : List Bar) : ℚ :=
  (bars.map Bar.volume).sum / (bars.length : ℚ)

/-- The while loop of ParticipateStrategy.execute, with explicit fuel: none
means the loop has not finished within the given number of iterations; each
iteration emits min(desired, remaining) and decreases remaining by the same
amount, while remaining is positive. -/
def participateChunks (fuel : Nat) (desired remaining : ℚ) : Option (List ℚ) :=
  match fuel with
  | 0 => if 0 < remaining then none else some []
  | Nat.succ fuel2 =>
    if 0 < remaining then
      let chunk_size := qmin desired remaining
      (participateChunks fuel2 desired (remaining - chunk_size)).map
        (fun l => chunk_size :: l)
    else some []

/-- ParticipateStrategy.execute: an empty window yields one best-effort slice
at price 0; a zero trailing-20-bar average volume yields one slice at the
last close; otherwise the order is cut into chunks of size
avg_volume times participation_rate, all priced at the aggressor-adjusted
last close. The source's while loop is modelled with explicit fuel. -/
def participateExecute (fuel : Nat) (participation_rate : ℚ) (order : Order)
    (market : List Bar) : Option (List (ℚ × ℚ)) :=
  if market.length = 0 then some [(order.quantity, 0)]
  else
    let df := lastBars 20 market
    let avg_volume := avgVolume df
    if avg_volume = 0 then
      some [(order.quantity, (market.getLast?.map Bar.close).getD 0)]
    else
      let desired_participation := avg_volume * participation_rate
      let current_price := (market.getLast?.map Bar.close).getD 0
      let execution_price :=
        if order.side = OrderSide.BUY then current_price * (10005/10000)
        else current_price * (9995/10000)
      (participateChunks fuel desired_participation order.quantity).map
        (fun l => l.map (fun c => (c, execution_price)))

theorem qmin_eq_left {a b : ℚ} (h : a ≤ b) : qmin a b = a := by
  unfold qmin
  rw [if_pos h]

theorem sliceQtySum_map_pair (l : List ℚ) (p : ℚ) :
    sliceQtySum (l.map (fun c => (c, p))) = l.sum := by
  simp [sliceQtySum, List.map_map, Function.comp_def]

theorem participateChunks_sum (desired : ℚ) (hd : 0 < desired) :
    ∀ (n : Nat) (remaining : ℚ), 0 ≤ remaining → remaining ≤ n * desired →
      ∃ l : List ℚ, participateChunks n desired remaining = some l ∧
        l.sum = remaining := by
  intro n
  induction n with
  | zero =>
    intro r h0 hle
    have hr0 : r = 0 := le_antisymm (by simpa using hle) h0
    subst hr0
    exact ⟨[], by simp [participateChunks], by simp⟩
  | succ n ih =>
    intro r h0 hle
    by_cases hr : 0 < r
    · have hchunk_le : qmin desired r ≤ r := qmin_le_right ..
      have h2 : 0 ≤ r - qmin desired r := by linarith
      have h3 : r - qmin desired r ≤ n * desired := by
        by_cases hcase : desired ≤ r
        · have hc : qmin desired r = desired := qmin_eq_left hcase
          have hle2 : r ≤ (n : ℚ) * desired + desired := by
            have : ((n + 1 : ℕ) : ℚ) * desired = (n : ℚ) * desired + desired := by
              push_cast
              ring
            linarith [hle, this.symm.le, this.le]
          rw [hc]
          linarith
        · have hc : qmin desired r = r :=
            qmin_eq_right (le_of_not_le hcase)
          rw [hc]
          have : (0:ℚ) ≤ (n : ℚ) * desired :=
            mul_nonneg (Nat.cast_nonneg n) hd.le
          linarith
      obtain ⟨l, hl, hs⟩ := ih (r - qmin desired r) h2 h3
      refine ⟨qmin desired r :: l, ?_, ?_⟩
      · simp [participateChunks, hr, hl]
      · simp [hs]
    · have hr0 : r = 0 := le_antisymm (not_lt.mp hr) h0
      subst hr0
      exact ⟨[], by simp [participateChunks], by simp⟩

theorem participateChunks_terminates (desired q : ℚ) (hd : 0 < desired)
    (hq : 0 ≤ q) :
    ∃ (n : Nat) (l : List ℚ), participateChunks n desired q = some l ∧
      l.sum = q := by
  obtain ⟨n, hn⟩ := exists_nat_gt (q / desired)
  have hle : q ≤ n * desired := by
    rw [div_lt_iff hd] at hn
    exact hn.le
  obtain ⟨l, hl, hs⟩ := participateChunks_sum desired hd n q hq hle
  exact ⟨n, l, hl, hs⟩

theorem participateChunks_zero_desired (q : ℚ) (hq : 0 < q) :
    ∀ fuel : Nat, participateChunks fuel 0 q = none := by
  intro fuel
  induction fuel with
  | zero => simp [participateChunks, hq]
  | succ n ih =>
    have hc : qmin 0 q = 0 := qmin_eq_left hq.le
    simp [participateChunks, hq, hc, ih]

/-- C10: for a positive parent quantity and a non-empty window with positive
trailing-20-bar average volume, a positive participation rate makes the
Participate loop terminate (some fuel suffices) with slices summing exactly
to the parent quantity, while a participation rate of 0 makes the loop run
forever (no fuel suffices), so the positive-rate hypothesis is necessary for
termination. -/
theorem C10_participate_terminates_sum (rate : ℚ) (order : Order)
    (market : List Bar)
    (hm : ¬ market.length = 0)
    (hav : 0 < avgVolume (lastBars 20 market))
    (hq : 0 < order.quantity) :
    (0 < rate →
      ∃ (fuel : Nat) (l : List (ℚ × ℚ)),
        participateExecute fuel rate order market = some l ∧
        sliceQtySum l = order.quantity) ∧
    (∀ fuel : Nat, participateExecute fuel 0 order market = none) := by
  constructor
  · intro hrate
    have hd : 0 < avgVolume (lastBars 20 market) * rate := mul_pos hav hrate
    obtain ⟨n, l, hl, hs⟩ :=
      participateChunks_terminates (avgVolume (lastBars 20 market) * rate)
        order.quantity hd hq.le
    refine ⟨n, ?_, ?_, ?_⟩
    · exact l.map (fun c =>
        (c, if order.side = OrderSide.BUY then
              ((market.getLast?.map Bar.close).getD 0) * (10005/10000)
            else ((market.getLast?.map Bar.close).getD 0) * (9995/10000)))
    · simp only [participateExecute]
      rw [if_neg hm, if_neg hav.ne']
      rw [hl]
      rfl
    · rw [sliceQtySum_map_pair]
      exact hs
  · intro fuel
    simp only [participateExecute]
    rw [if_neg hm, if_neg hav.ne']
    rw [mul_zero, participateChunks_zero_desired order.quantity hq fuel]
    rfl

def partOrder : Order :=
  { id := 1, symbol := demoSymbol, side := OrderSide.BUY,
    order_type := OrderType.MARKET, quantity := 100,
    status := OrderStatus.NEW }

/-- Witness for C10 at the order of quantity 100, a one-bar window of volume
1000 and participation rate one tenth. -/
theorem C10_participate_terminates_sum_witness :
    (0 < (1/10 : ℚ) →
      ∃ (fuel : Nat) (l : List (ℚ × ℚ)),
        participateExecute fuel (1/10) partOrder [demoBar] = some l ∧
        sliceQtySum l = partOrder.quantity) ∧
    (∀ fuel : Nat, participateExecute fuel 0 partOrder [demoBar] = none) :=
  C10_participate_terminates_sum (1/10) partOrder [demoBar]
    (by decide) (by decide) (by decide)

end QTPlatform
